import Mathlib

/-!
Shallow embedding of the incremental dataset assembly engine of
`src/pylexibank/cldf.py` (class `Dataset`): record store with idempotent
insertion (`_add_object`), identifier generators (`lexeme_id`,
`cognate_id`), the lexeme assembly pipeline (`add_lexemes`), the
concept assembler (`add_concept`) and the referential pruning performed
at session exit (`__exit__`).

Modelling conventions:
- Python dicts produced by `attr.asdict(cls(**kw))` always carry the full
  field set of the record class, so a record is a fixed-field structure
  whose optional fields model Python values that may be `None`.  The attr
  record classes themselves live outside the embedded module; their
  instantiation is modelled as the identity on the field set.
- Identifier values may be strings or ints before stringification
  (`'{0}'.format(...)`), hence `IdV`.
- Exceptions are modelled with `Except PyErr`; an `.error` result means the
  Python call raised before mutating the store, so the caller's store is
  unchanged.
- External collaborators (`split_forms`, `clean_form`, `tokenizer`, the
  segment analyzer of `pylexibank.transcription`) are parameters of the
  pipeline, bundled in `Collab`.
-/

namespace Pylexibank

/-- An identifier value as it appears in a raw record: a string or an int
(Python stringifies it with `'{0}'.format`). -/
inductive IdV where
  | str (s : String)
  | int (n : Int)
deriving DecidableEq, Repr

/-- `'{0}'.format(v)`: decimal rendering for ints, identity for strings. -/
def IdV.stringify : IdV → String
  | .str s => s
  | .int n => toString n

/-- One record (a Python dict produced from an attr record class).  Fields
not used by any embedded operation are omitted; `Option` models values
that may be `None`.  `Segments` distinguishes an absent key (`none`) from a
present list, as `kw_.setdefault('Segments', ...)` does; likewise
`Concepticon_Gloss` distinguishes an absent key from a present value that
may itself be `None`. -/
structure Rec where
  ID : Option IdV
  Language_ID : Option IdV
  Parameter_ID : Option IdV
  Cognateset_ID : Option IdV
  Form_ID : Option IdV
  Value : Option String
  Form : Option String
  Segments : Option (List String)
  Concepticon_ID : Option Int
  Concepticon_Gloss : Option (Option String)
  Name : Option String
deriving DecidableEq, Repr

/-- A record with every field empty. -/
def Rec.empty : Rec :=
  ⟨none, none, none, none, none, none, none, none, none, none, none⟩

/-- The four CLDF tables of the store (`cls.__cldf_table__()` for the four
record classes registered in `Dataset.__init__`). -/
inductive Table where
  | FormTable
  | CognateTable
  | LanguageTable
  | ParameterTable
deriving DecidableEq, Repr

/-- The table's name string, as used in error messages. -/
def Table.name : Table → String
  | .FormTable => "FormTable"
  | .CognateTable => "CognateTable"
  | .LanguageTable => "LanguageTable"
  | .ParameterTable => "ParameterTable"

/-- The Python exceptions the embedded code raises or catches. -/
inductive PyErr where
  | valueError (msg : String)
  | keyError
  | attributeError
deriving DecidableEq, Repr

/-- `c` is matched by the character class `[A-Za-z0-9_\-]`. -/
def idChar (c : Char) : Bool :=
  ('A' ≤ c && c ≤ 'Z') || ('a' ≤ c && c ≤ 'z') || ('0' ≤ c && c ≤ '9') ||
    c == '_' || c == '-'

/-- `l` is one or more `idChar`s. -/
def idBody (l : List Char) : Bool :=
  !l.isEmpty && l.all idChar

/-- `ID_PATTERN.match(s)` for `ID_PATTERN = re.compile('[A-Za-z0-9_\-]+$')`:
the whole string is one or more identifier characters, optionally followed
by one final newline (Python `$` also matches just before a trailing
newline).  Stated over the string's character list. -/
def ID_PATTERN_match (s : String) : Bool :=
  idBody s.data || (s.data.getLast? == some '\n' && idBody s.data.dropLast)

/-- The session-owned record store: the two identifier counters
(`_count`, `_cognate_count`), the per-table record lists (`objects`) and
the per-table deduplication index (`_obj_index`; its elements are the
stringified `ID` values, `none` when the inserted record's `ID` was
`None`). -/
structure Store where
  count : Nat
  cognate_count : Nat
  objects : Table → List Rec
  obj_index : Table → List (Option String)

/-- The store as initialised by `Dataset.__init__`. -/
def Store.empty : Store :=
  ⟨0, 0, fun _ => [], fun _ => []⟩

/-- Point update of a per-table map. -/
def setAt {β : Type} (f : Table → β) (t : Table) (v : β) : Table → β :=
  fun u => if u = t then v else f u

/-- One iteration of the stringify-and-check loop of `_add_object` for one
of the keys `ID`, `Language_ID`, `Parameter_ID`, `Cognateset_ID`: skipped
when the value is `None`, otherwise the value is stringified in place and
checked against `ID_PATTERN`. -/
def validateField (t : Table) (key : String) (v : Option IdV) :
    Except PyErr (Option IdV) :=
  match v with
  | none => .ok none
  | some x =>
      let s := x.stringify
      if ID_PATTERN_match s then .ok (some (.str s))
      else .error (.valueError
        ("invalid CLDF identifier " ++ t.name ++ "-" ++ key ++ ": " ++ s))

/-- The validation loop of `_add_object`: the four identifier keys are
processed in order, each stringified in place and checked; the first
failure raises. -/
def validateRec (t : Table) (r : Rec) : Except PyErr Rec := do
  let i ← validateField t "ID" r.ID
  let l ← validateField t "Language_ID" r.Language_ID
  let p ← validateField t "Parameter_ID" r.Parameter_ID
  let c ← validateField t "Cognateset_ID" r.Cognateset_ID
  .ok { r with ID := i, Language_ID := l, Parameter_ID := p, Cognateset_ID := c }

/-- The record with its four identifier fields stringified (what
`validateRec` returns when all of them pass the pattern check). -/
def stringifyRec (r : Rec) : Rec :=
  { r with
    ID := r.ID.map (fun x => .str x.stringify),
    Language_ID := r.Language_ID.map (fun x => .str x.stringify),
    Parameter_ID := r.Parameter_ID.map (fun x => .str x.stringify),
    Cognateset_ID := r.Cognateset_ID.map (fun x => .str x.stringify) }

/-- An identifier field is absent or passes the pattern check once
stringified. -/
def validField (v : Option IdV) : Bool :=
  match v with
  | none => true
  | some x => ID_PATTERN_match x.stringify

/-- The deduplication key of a record: its stringified `ID` value. -/
def keyOf (r : Rec) : Option String :=
  r.ID.map IdV.stringify

/-- `Dataset._add_object`: validate and stringify the identifier fields
(raising `ValueError` on the first pattern failure, before any store
mutation); then, if the record's `ID` is not in the table's deduplication
index, add it to the index and append the record, otherwise leave the
store untouched.  The (stringified) record is returned either way. -/
def addObject (st : Store) (t : Table) (r : Rec) : Except PyErr (Rec × Store) := do
  let d ← validateRec t r
  if keyOf d ∈ st.obj_index t then
    .ok (d, st)
  else
    .ok (d, { st with
      objects := setAt st.objects t (st.objects t ++ [d]),
      obj_index := setAt st.obj_index t (keyOf d :: st.obj_index t) })

/-- `Dataset.lexeme_id`: increment `_count` and return its string form. -/
def lexeme_id (st : Store) : String × Store :=
  (toString (st.count + 1), { st with count := st.count + 1 })

/-- `Dataset.cognate_id`: increment `_cognate_count` and return it. -/
def cognate_id (st : Store) : Nat × Store :=
  (st.cognate_count + 1, { st with cognate_count := st.cognate_count + 1 })

/-- The referential pruning performed by `Dataset.__exit__` before
writing: for `ParameterTable` (foreign key `Parameter_ID`) and
`LanguageTable` (foreign key `Language_ID`), keep exactly the records
whose `ID` occurs in the set of foreign-key values of the form table;
the form and cognate tables are left untouched. -/
def finalize (objs : Table → List Rec) : Table → List Rec
  | .ParameterTable =>
      (objs .ParameterTable).filter
        (fun o => (objs .FormTable).any (fun f => decide (f.Parameter_ID = o.ID)))
  | .LanguageTable =>
      (objs .LanguageTable).filter
        (fun o => (objs .FormTable).any (fun f => decide (f.Language_ID = o.ID)))
  | .FormTable => objs .FormTable
  | .CognateTable => objs .CognateTable

/-- The result is an exception. -/
def isErr {ε α : Type} : Except ε α → Bool
  | .error _ => true
  | .ok _ => false

/-- The records of table `t` whose deduplication key is `k`, in insertion
order. -/
def recordsUnder (st : Store) (t : Table) (k : Option String) : List Rec :=
  (st.objects t).filter (fun d => decide (keyOf d = k))

/-- An element of `_bipa`, the list of symbolic phonetic model objects
returned by the segment analyzer; `add_lexemes` only inspects whether an
element is a `pyclts.models.UnknownSound`. -/
inductive Sound where
  | unknownSound
  | sound (name : String)
deriving DecidableEq, Repr

/-- The element is an `UnknownSound` (the `type(s)` membership test of
`add_lexemes`). -/
def Sound.isUnknown : Sound → Bool
  | .unknownSound => true
  | .sound _ => false

/-- The external collaborators consumed by the lexeme pipeline, over an
abstract per-language analysis-state type `A`: the dataset's
`split_forms`, `clean_form` and optional `tokenizer`, and the segment
analyzer `analyze` of `pylexibank.transcription`, whose signature
`(segments, state) -> (segments, bipa, sound classes, state)` and failure
modes (`ValueError` for malformed input, `KeyError`/`AttributeError` for
contract violations) follow the spec's interface description; `init` is
the fresh state `Analysis()`. -/
structure Collab (A : Type) where
  split_forms : Rec → Option String → List String
  clean_form : Rec → String → String
  tokenizer : Option (Rec → String → List String)
  analyze : List String → A → Except PyErr (List String × List Sound × List String × A)
  init : A

/-- `Dataset.tokenize`: apply the configured tokenizer, `None` when none
is configured. -/
def Collab.tokenize {A : Type} (C : Collab A) (item : Rec) (s : String) :
    Option (List String) :=
  match C.tokenizer with
  | some tk => some (tk item s)
  | none => none

/-- The session state touched by `add_lexemes`: the record store plus the
per-language analysis map `tr_analyses` (keyed by the raw `Language_ID`
value) and the two diagnostic buckets `tr_bad_words` and
`tr_invalid_words`. -/
structure Session (A : Type) where
  store : Store
  tr_analyses : List (Option IdV × A)
  tr_bad_words : List Rec
  tr_invalid_words : List Rec

/-- Dict lookup in the analysis map. -/
def lookupA {A : Type} (l : List (Option IdV × A)) (k : Option IdV) : Option A :=
  (l.find? (fun p => decide (p.1 = k))).map Prod.snd

/-- `dict.setdefault(k, v)`: return the stored value, inserting `v` first
when the key is absent. -/
def setdefaultA {A : Type} (l : List (Option IdV × A)) (k : Option IdV) (v : A) :
    A × List (Option IdV × A) :=
  match lookupA l k with
  | some a => (a, l)
  | none => (v, l ++ [(k, v)])

/-- Write back the analysis state mutated in place by `analyze`. -/
def updateA {A : Type} (l : List (Option IdV × A)) (k : Option IdV) (v : A) :
    List (Option IdV × A) :=
  l.map (fun p => if p.1 = k then (k, v) else p)

/-- A whitespace character in the sense of Python's `str.strip()` (the
ASCII whitespace characters; `strip` also covers further Unicode space
characters, immaterial here). -/
def pyWhitespace (c : Char) : Bool :=
  c = ' ' || c = '\t' || c = '\n' || c = '\r' || c = '\x0b' || c = '\x0c'

/-- Python `s.strip()`: remove leading and trailing whitespace. -/
def pyStrip (s : String) : String :=
  ⟨((s.data.dropWhile pyWhitespace).reverse.dropWhile pyWhitespace).reverse⟩

/-- The `Segments` value given to a candidate form: the row's own
`Segments` when that key is present, otherwise
`self.tokenize(kw_, form) or []`. -/
def segsOf {A : Type} (C : Collab A) (kw : Rec) (form : String) : List String :=
  match kw.Segments with
  | some sg => sg
  | none => (C.tokenize kw form).getD []

/-- The body of the `add_lexemes` loop for one candidate form: skip empty
candidates and candidates that clean and strip to the empty string;
otherwise set `Segments`, draw the next lexeme id, set `ID` and `Form`,
insert through `_add_object`, and when `Segments` is non-empty run the
segment analyzer against this language's accumulated state, routing the
record into `tr_bad_words` (unknown sound or a `'?'` sound class) or
`tr_invalid_words` (`ValueError`), and re-raising `KeyError` and
`AttributeError` after reporting the offending form. -/
def addLexemeStep {A : Type} (C : Collab A) (kw : Rec)
    (s : Session A × List Rec) (form : String) :
    Except PyErr (Session A × List Rec) :=
  let (st, lexemes) := s
  if form = "" then .ok (st, lexemes)
  else
    let form2 := pyStrip (C.clean_form kw form)
    if form2 = "" then .ok (st, lexemes)
    else
      let segs := segsOf C kw form2
      let (newId, store1) := lexeme_id st.store
      let kw2 : Rec :=
        { kw with Segments := some segs, ID := some (.str newId), Form := some form2 }
      match addObject store1 .FormTable kw2 with
      | .error e => .error e
      | .ok (d, store2) =>
          let lexemes2 := lexemes ++ [d]
          let st2 : Session A := { st with store := store2 }
          if segs = [] then .ok (st2, lexemes2)
          else
            let (a, analyses1) := setdefaultA st2.tr_analyses kw2.Language_ID C.init
            let st3 : Session A := { st2 with tr_analyses := analyses1 }
            match C.analyze segs a with
            | .ok (_, bipa, sc, a2) =>
                let st4 : Session A :=
                  { st3 with tr_analyses := updateA st3.tr_analyses kw2.Language_ID a2 }
                if bipa.any Sound.isUnknown || sc.contains "?" then
                  .ok ({ st4 with tr_bad_words := st4.tr_bad_words ++ [kw2] }, lexemes2)
                else
                  .ok (st4, lexemes2)
            | .error (.valueError _) =>
                .ok ({ st3 with tr_invalid_words := st3.tr_invalid_words ++ [kw2] },
                  lexemes2)
            | .error .keyError => .error .keyError
            | .error .attributeError => .error .attributeError

/-- The `add_lexemes` loop over the split candidates, threading the
session state and the accumulating result list. -/
def addLexemesGo {A : Type} (C : Collab A) (kw : Rec) :
    List String → Session A × List Rec → Except PyErr (Session A × List Rec)
  | [], s => .ok s
  | f :: fs, s =>
      match addLexemeStep C kw s f with
      | .error e => .error e
      | .ok s2 => addLexemesGo C kw fs s2

/-- `Dataset.add_lexemes`: split the row's raw `Value` through the
dataset's `split_forms`, process each candidate with `addLexemeStep`, and
return the list of newly created lexeme records. -/
def add_lexemes {A : Type} (C : Collab A) (st : Session A) (kw : Rec) :
    Except PyErr (List Rec × Session A) :=
  match addLexemesGo C kw (C.split_forms kw kw.Value) (st, []) with
  | .error e => .error e
  | .ok (st2, lexemes) => .ok (lexemes, st2)

/-- Modelled from the spec: `self.dataset.concepticon.cached_glosses`, the
catalog-ID-to-gloss lookup used by `add_concept`, is not part of the
embedded sources; per the spec it is a simple key lookup with a missing
key yielding `None`. -/
def cached_glosses (m : List (Int × String)) (i : Int) : Option String :=
  (m.find? (fun p => decide (p.1 = i))).map Prod.snd

/-- `Dataset.add_concept`: when a truthy `Concepticon_ID` is present
(a Python int is falsy exactly when it is `0`), default
`Concepticon_Gloss` to the catalog gloss for `int(kw['Concepticon_ID'])`;
then insert into the concept (parameter) table through `_add_object`. -/
def add_concept (m : List (Int × String)) (st : Store) (kw : Rec) :
    Except PyErr (Rec × Store) :=
  let kw1 : Rec :=
    match kw.Concepticon_ID with
    | some cid =>
        if cid ≠ 0 then
          match kw.Concepticon_Gloss with
          | some _ => kw
          | none => { kw with Concepticon_Gloss := some (cached_glosses m cid) }
        else kw
    | none => kw
  addObject st .ParameterTable kw1

/-- The store after `n` calls of `lexeme_id`. -/
def lexCalls (st : Store) : Nat → Store
  | 0 => st
  | n + 1 => (lexeme_id (lexCalls st n)).2

/-- The value returned by the `(n+1)`-th call of `lexeme_id`. -/
def lexVal (st : Store) (n : Nat) : String :=
  (lexeme_id (lexCalls st n)).1

/-- The store after `n` calls of `cognate_id`. -/
def cogCalls (st : Store) : Nat → Store
  | 0 => st
  | n + 1 => (cognate_id (cogCalls st n)).2

/-- The value returned by the `(n+1)`-th call of `cognate_id`. -/
def cogVal (st : Store) (n : Nat) : Nat :=
  (cognate_id (cogCalls st n)).1

/-- Running a sequence of `_add_object` calls; an exception aborts the
whole run. -/
def runInserts (st : Store) : List (Table × Rec) → Except PyErr Store
  | [] => .ok st
  | (t, r) :: l =>
      match addObject st t r with
      | .error e => .error e
      | .ok (_, st1) => runInserts st1 l

/-- The lexeme records `add_lexemes` creates from the candidate list `cs`
when the counter stands at `c`: exactly the candidates that are non-empty
and survive cleaning and stripping, each stringified, with `Segments`,
sequential `ID` and cleaned `Form` set. -/
def expectedLexemes {A : Type} (C : Collab A) (kw : Rec) :
    List String → Nat → List Rec
  | [], _ => []
  | f :: fs, c =>
      if f = "" then expectedLexemes C kw fs c
      else
        let form2 := pyStrip (C.clean_form kw f)
        if form2 = "" then expectedLexemes C kw fs c
        else
          stringifyRec
              { kw with
                Segments := some (segsOf C kw form2)
                ID := some (.str (toString (c + 1)))
                Form := some form2 } ::
            expectedLexemes C kw fs (c + 1)

/-- The decimal digit characters of `n`, most significant first (empty
for `0`). -/
def decChars (n : Nat) : List Char :=
  ((Nat.digits 10 n).map Nat.digitChar).reverse

/-- Sample record: ID `a`, Form `x`. -/
def recA_x : Rec := { Rec.empty with ID := some (.str "a"), Form := some "x" }

/-- Sample record: same ID `a`, different Form `y`. -/
def recA_y : Rec := { Rec.empty with ID := some (.str "a"), Form := some "y" }

/-- Sample record: valid ID `a` but malformed `Language_ID`. -/
def recA_badLang : Rec :=
  { Rec.empty with ID := some (.str "a"), Language_ID := some (.str "bad id!") }

/-- Sample record with the malformed ID `bad id!`. -/
def recBadId : Rec := { Rec.empty with ID := some (.str "bad id!") }

/-- Sample store holding `recA_x` in the form table, its ID indexed. -/
def storeA : Store :=
  ⟨0, 0, fun t => if t = .FormTable then [recA_x] else [],
    fun t => if t = .FormTable then [some "a"] else []⟩

/-- Sample form record referencing language `l1` and concept `p1`. -/
def formF1 : Rec :=
  { Rec.empty with
    ID := some (.str "1")
    Language_ID := some (.str "l1")
    Parameter_ID := some (.str "p1")
    Form := some "go" }

/-- Sample language record `l1` (referenced by `formF1`). -/
def langL1 : Rec := { Rec.empty with ID := some (.str "l1") }

/-- Sample language record `L1` (referenced by no form). -/
def langL2 : Rec := { Rec.empty with ID := some (.str "L1") }

/-- Sample concept record `p1` (referenced by `formF1`). -/
def paramP1 : Rec := { Rec.empty with ID := some (.str "p1") }

/-- Sample table map with one form, two languages, one concept. -/
def objsC : Table → List Rec := fun t =>
  match t with
  | .FormTable => [formF1]
  | .LanguageTable => [langL1, langL2]
  | .ParameterTable => [paramP1]
  | .CognateTable => []

/-- Sample concept row: ID `c1`, Concepticon_ID `5`, no gloss. -/
def kwConcept : Rec :=
  { Rec.empty with ID := some (.str "c1"), Concepticon_ID := some 5 }

/-- Split a character list on `;` (sample splitting collaborator). -/
def splitOnSemi : List Char → List (List Char)
  | [] => [[]]
  | c :: rest =>
      match splitOnSemi rest with
      | [] => [[]]
      | g :: gs => if c = ';' then [] :: g :: gs else (c :: g) :: gs

/-- Sample `split_forms` collaborator splitting the raw value on `;`. -/
def splitSemi : Rec → Option String → List String := fun _ v =>
  (splitOnSemi (v.getD "").data).map (fun l => ⟨l⟩)

/-- Sample collaborator set for the splitting scenario: split on `;`,
identity cleaning, no tokenizer, an analyzer that accepts everything. -/
def sampleC : Collab Unit :=
  { split_forms := splitSemi
    clean_form := fun _ s => s
    tokenizer := none
    analyze := fun s a => .ok (s, [], [], a)
    init := () }

/-- Sample collaborator set for the diagnostic-routing scenario: identity
splitting and cleaning, an analyzer that reports an unknown sound and a
`?` sound class. -/
def sampleC4 : Collab Unit :=
  { split_forms := fun _ v => [v.getD ""]
    clean_form := fun _ s => s
    tokenizer := none
    analyze := fun s a => .ok (s, [Sound.unknownSound], ["?"], a)
    init := () }

/-- A fresh assembly session. -/
def sampleS : Session Unit := ⟨Store.empty, [], [], []⟩

/-- Sample raw row with value `to go; to walk`. -/
def rowGoWalk : Rec :=
  { Rec.empty with
    Value := some "to go; to walk"
    Language_ID := some (.str "l1")
    Parameter_ID := some (.str "p1") }

/-- Sample raw row with non-empty `Segments`. -/
def rowSeg : Rec :=
  { Rec.empty with
    Value := some "ba"
    Language_ID := some (.str "l1")
    Parameter_ID := some (.str "p1")
    Segments := some ["b", "a"] }

section Lemmas

variable {A : Type}

theorem validateField_ok (t : Table) (key : String) (v : Option IdV)
    (h : validField v = true) :
    validateField t key v = .ok (v.map (fun x => .str x.stringify)) := by
  cases v with
  | none => rfl
  | some x =>
      simp only [validField] at h
      simp [validateField, h]

theorem validateField_err (t : Table) (key : String) (v : Option IdV)
    (h : validField v = false) : isErr (validateField t key v) = true := by
  cases v with
  | none => simp [validField] at h
  | some x =>
      simp only [validField] at h
      simp [validateField, h, isErr]

theorem validateRec_ok (t : Table) (r : Rec)
    (h1 : validField r.ID = true) (h2 : validField r.Language_ID = true)
    (h3 : validField r.Parameter_ID = true) (h4 : validField r.Cognateset_ID = true) :
    validateRec t r = .ok (stringifyRec r) := by
  simp [validateRec, validateField_ok _ _ _ h1, validateField_ok _ _ _ h2,
    validateField_ok _ _ _ h3, validateField_ok _ _ _ h4, stringifyRec, Bind.bind,
    Except.bind]

theorem keyOf_stringifyRec (r : Rec) : keyOf (stringifyRec r) = keyOf r := by
  cases h : r.ID <;> simp [keyOf, stringifyRec, h, IdV.stringify]

theorem addObject_eq_ok (st : Store) (t : Table) (r d : Rec)
    (hv : validateRec t r = .ok d) :
    addObject st t r =
      if keyOf d ∈ st.obj_index t then .ok (d, st)
      else .ok (d, { st with
        objects := setAt st.objects t (st.objects t ++ [d]),
        obj_index := setAt st.obj_index t (keyOf d :: st.obj_index t) }) := by
  simp [addObject, hv, Bind.bind, Except.bind]

theorem addObject_eq_err (st : Store) (t : Table) (r : Rec) (e : PyErr)
    (hv : validateRec t r = .error e) : addObject st t r = .error e := by
  simp [addObject, hv, Bind.bind, Except.bind]

theorem validateField_err_exists (t : Table) (key : String) (v : Option IdV)
    (h : validField v = false) : ∃ e, validateField t key v = .error e := by
  cases v with
  | none => simp [validField] at h
  | some x =>
      simp only [validField] at h
      exact ⟨.valueError
        ("invalid CLDF identifier " ++ t.name ++ "-" ++ key ++ ": " ++ x.stringify),
        by simp [validateField, h]⟩

theorem isErr_addObject (st : Store) (t : Table) (r : Rec) :
    isErr (addObject st t r) = isErr (validateRec t r) := by
  cases hv : validateRec t r with
  | error e => rw [addObject_eq_err _ _ _ _ hv]; rfl
  | ok d =>
      rw [addObject_eq_ok _ _ _ _ hv]
      split <;> rfl

theorem isErr_validateRec (t : Table) (r : Rec)
    (h : validField r.ID = false ∨ validField r.Language_ID = false ∨
      validField r.Parameter_ID = false ∨ validField r.Cognateset_ID = false) :
    isErr (validateRec t r) = true := by
  simp only [validateRec, Bind.bind]
  cases hI : validateField t "ID" r.ID with
  | error e => simp [Except.bind, isErr]
  | ok i =>
      cases hL : validateField t "Language_ID" r.Language_ID with
      | error e => simp [Except.bind, isErr]
      | ok lv =>
          cases hP : validateField t "Parameter_ID" r.Parameter_ID with
          | error e => simp [Except.bind, isErr]
          | ok p =>
              cases hC : validateField t "Cognateset_ID" r.Cognateset_ID with
              | error e => simp [Except.bind, isErr]
              | ok c =>
                  exfalso
                  rcases h with h | h | h | h
                  · obtain ⟨e, he⟩ := validateField_err_exists t "ID" r.ID h
                    rw [he] at hI; cases hI
                  · obtain ⟨e, he⟩ := validateField_err_exists t "Language_ID" r.Language_ID h
                    rw [he] at hL; cases hL
                  · obtain ⟨e, he⟩ := validateField_err_exists t "Parameter_ID" r.Parameter_ID h
                    rw [he] at hP; cases hP
                  · obtain ⟨e, he⟩ := validateField_err_exists t "Cognateset_ID" r.Cognateset_ID h
                    rw [he] at hC; cases hC

theorem addObject_frozen (st : Store) (t' : Table) (r d : Rec) (st' : Store)
    (h : addObject st t' r = .ok (d, st')) (t : Table) (k : Option String)
    (hk : k ∈ st.obj_index t) :
    k ∈ st'.obj_index t ∧ recordsUnder st' t k = recordsUnder st t k := by
  cases hv : validateRec t' r with
  | error e => rw [addObject_eq_err _ _ _ _ hv] at h; cases h
  | ok d0 =>
      rw [addObject_eq_ok _ _ _ _ hv] at h
      by_cases hm : keyOf d0 ∈ st.obj_index t'
      · rw [if_pos hm] at h
        injection h with h2
        injection h2 with hd hs
        subst hd
        subst hs
        exact ⟨hk, rfl⟩
      · rw [if_neg hm] at h
        injection h with h2
        injection h2 with hd hs
        subst hs
        by_cases ht : t = t'
        · subst ht
          refine ⟨by simp [setAt, hk], ?_⟩
          have hne : ¬keyOf d0 = k := fun hh => hm (hh ▸ hk)
          simp [recordsUnder, setAt, List.filter_append, hne]
        · exact ⟨by simp [setAt, ht, hk], by simp [recordsUnder, setAt, ht]⟩

theorem runInserts_frozen (l : List (Table × Rec)) :
    ∀ st st', runInserts st l = .ok st' → ∀ t k, k ∈ st.obj_index t →
      k ∈ st'.obj_index t ∧ recordsUnder st' t k = recordsUnder st t k := by
  induction l with
  | nil =>
      intro st st' h t k hk
      obtain rfl : st = st' := by simpa [runInserts] using h
      exact ⟨hk, rfl⟩
  | cons x xs ih =>
      intro st st' h t k hk
      obtain ⟨tx, rx⟩ := x
      simp only [runInserts] at h
      cases ha : addObject st tx rx with
      | error e => rw [ha] at h; cases h
      | ok p =>
          obtain ⟨d0, st1⟩ := p
          rw [ha] at h
          have h' : runInserts st1 xs = .ok st' := h
          have h1 := addObject_frozen st tx rx d0 st1 ha t k hk
          have h2 := ih st1 st' h' t k h1.1
          exact ⟨h2.1, h2.2.trans h1.2⟩

theorem toDigitsCore_eq_decChars (f : Nat) : ∀ (n : Nat) (acc : List Char),
    n < 10 ^ f → 0 < f →
    Nat.toDigitsCore 10 f n acc = (if n = 0 then ['0'] else decChars n) ++ acc := by
  induction f with
  | zero => intro n acc _ hpos; omega
  | succ f ih =>
      intro n acc hf _
      simp only [Nat.toDigitsCore]
      by_cases h10 : n / 10 = 0
      · rw [if_pos h10]
        have hn10 : n < 10 := by omega
        by_cases hn0 : n = 0
        · subst hn0; rfl
        · rw [if_neg hn0]
          simp [decChars, Nat.digits_of_lt 10 n hn0 hn10, Nat.mod_eq_of_lt hn10]
      · rw [if_neg h10]
        have hf0 : 0 < f := by
          rcases Nat.eq_zero_or_pos f with hf0 | hf0
          · exfalso; subst hf0; norm_num at hf; omega
          · exact hf0
        have hdiv : n / 10 < 10 ^ f := by
          rw [Nat.div_lt_iff_lt_mul (by norm_num)]
          calc n < 10 ^ (f + 1) := hf
            _ = 10 ^ f * 10 := pow_succ 10 f
        rw [ih (n / 10) (Nat.digitChar (n % 10) :: acc) hdiv hf0]
        have hn0 : n ≠ 0 := by omega
        rw [if_neg h10, if_neg hn0]
        have hd : Nat.digits 10 n = n % 10 :: Nat.digits 10 (n / 10) :=
          Nat.digits_def' (by norm_num) (Nat.pos_of_ne_zero hn0)
        simp [decChars, hd]

theorem Nat_repr_eq_decChars (n : Nat) :
    Nat.repr n = ((if n = 0 then ['0'] else decChars n)).asString := by
  unfold Nat.repr Nat.toDigits
  rw [toDigitsCore_eq_decChars (n + 1) n []
    (by
      calc n < 10 ^ n := Nat.lt_pow_self (by norm_num) n
        _ ≤ 10 ^ (n + 1) := Nat.pow_le_pow_right (by norm_num) (Nat.le_succ n))
    (Nat.succ_pos n)]
  simp

theorem digitChar_inj (a b : Nat) (ha : a < 10) (hb : b < 10)
    (h : Nat.digitChar a = Nat.digitChar b) : a = b := by
  interval_cases a <;> interval_cases b <;> first | rfl | exact absurd h (by decide)

theorem map_digitChar_inj (l1 : List Nat) : ∀ l2 : List Nat,
    (∀ x ∈ l1, x < 10) → (∀ x ∈ l2, x < 10) →
    l1.map Nat.digitChar = l2.map Nat.digitChar → l1 = l2 := by
  induction l1 with
  | nil =>
      intro l2 _ _ h
      cases l2 with
      | nil => rfl
      | cons b l2 => simp at h
  | cons a l1 ih =>
      intro l2 h1 h2 h
      cases l2 with
      | nil => simp at h
      | cons b l2 =>
          simp only [List.map_cons] at h
          injection h with hh ht
          have hab := digitChar_inj a b (h1 a (by simp)) (h2 b (by simp)) hh
          subst hab
          rw [ih l2 (fun x hx => h1 x (by simp [hx])) (fun x hx => h2 x (by simp [hx])) ht]

theorem decChars_zero_aux (n : Nat) (hn : n ≠ 0)
    (h : (Nat.digits 10 n).map Nat.digitChar = ['0']) : False := by
  cases hds : Nat.digits 10 n with
  | nil => rw [hds] at h; simp at h
  | cons d ds =>
      rw [hds] at h
      simp only [List.map_cons] at h
      injection h with hh ht
      have hd0 : d = 0 := digitChar_inj d 0
        (Nat.digits_lt_base (by norm_num) (hds ▸ List.mem_cons_self d ds))
        (by norm_num) hh
      have hds' : ds = [] := by simpa using ht
      apply hn
      have hd : Nat.digits 10 n = [0] := by rw [hds, hd0, hds']
      have h2 := congrArg (Nat.ofDigits 10) hd
      rw [Nat.ofDigits_digits] at h2
      simpa [Nat.ofDigits] using h2

theorem natRepr_inj (m n : Nat) (h : Nat.repr m = Nat.repr n) : m = n := by
  rw [Nat_repr_eq_decChars, Nat_repr_eq_decChars] at h
  have h' : (if m = 0 then ['0'] else decChars m) =
      (if n = 0 then ['0'] else decChars n) := by
    have h2 := congrArg String.data h
    simpa [List.asString] using h2
  by_cases hm : m = 0 <;> by_cases hn : n = 0
  · omega
  · exfalso
    rw [if_pos hm, if_neg hn] at h'
    refine decChars_zero_aux n hn ?_
    have h2 := congrArg List.reverse h'
    simpa [decChars] using h2.symm
  · exfalso
    rw [if_neg hm, if_pos hn] at h'
    refine decChars_zero_aux m hm ?_
    have h2 := congrArg List.reverse h'
    simpa [decChars] using h2
  · rw [if_neg hm, if_neg hn] at h'
    have hd : (Nat.digits 10 m).map Nat.digitChar = (Nat.digits 10 n).map Nat.digitChar := by
      have h2 := congrArg List.reverse h'
      simpa [decChars] using h2
    have hdig := map_digitChar_inj _ _
      (fun x hx => Nat.digits_lt_base (by norm_num) hx)
      (fun x hx => Nat.digits_lt_base (by norm_num) hx) hd
    calc m = Nat.ofDigits 10 (Nat.digits 10 m) := (Nat.ofDigits_digits 10 m).symm
      _ = Nat.ofDigits 10 (Nat.digits 10 n) := by rw [hdig]
      _ = n := Nat.ofDigits_digits 10 n

theorem toString_nat_inj (m n : Nat) (h : toString m = toString n) : m = n :=
  natRepr_inj m n h

theorem lexCalls_spec (st : Store) (n : Nat) :
    (lexCalls st n).count = st.count + n ∧
      (lexCalls st n).cognate_count = st.cognate_count := by
  induction n with
  | zero => exact ⟨rfl, rfl⟩
  | succ n ih =>
      refine ⟨?_, ih.2⟩
      show (lexCalls st n).count + 1 = st.count + (n + 1)
      rw [ih.1]
      omega

theorem cogCalls_spec (st : Store) (n : Nat) :
    (cogCalls st n).cognate_count = st.cognate_count + n ∧
      (cogCalls st n).count = st.count := by
  induction n with
  | zero => exact ⟨rfl, rfl⟩
  | succ n ih =>
      refine ⟨?_, ih.2⟩
      show (cogCalls st n).cognate_count + 1 = st.cognate_count + (n + 1)
      rw [ih.1]
      omega

theorem lexVal_eq (st : Store) (n : Nat) :
    lexVal st n = toString (st.count + n + 1) := by
  show toString ((lexCalls st n).count + 1) = toString (st.count + n + 1)
  rw [(lexCalls_spec st n).1]

theorem cogVal_eq (st : Store) (n : Nat) :
    cogVal st n = st.cognate_count + n + 1 := by
  show (cogCalls st n).cognate_count + 1 = st.cognate_count + n + 1
  rw [(cogCalls_spec st n).1]

theorem digitChar_idChar (d : Nat) (h : d < 10) : idChar (Nat.digitChar d) = true := by
  interval_cases d <;> decide

theorem ID_PATTERN_match_toString (n : Nat) :
    ID_PATTERN_match (toString n) = true := by
  show ID_PATTERN_match (Nat.repr n) = true
  rw [Nat_repr_eq_decChars]
  by_cases hn : n = 0
  · subst hn; decide
  · rw [if_neg hn]
    have hdata : ((decChars n).asString).data = decChars n := rfl
    suffices h : idBody (decChars n) = true by
      simp [ID_PATTERN_match, hdata, h]
    simp only [idBody, decChars, Bool.and_eq_true, List.all_eq_true]
    constructor
    · have hne : Nat.digits 10 n ≠ [] := Nat.digits_ne_nil_iff_ne_zero.mpr hn
      simp [hne]
    · intro c hc
      simp only [List.mem_reverse, List.mem_map] at hc
      obtain ⟨d, hd, rfl⟩ := hc
      exact digitChar_idChar d (Nat.digits_lt_base (by norm_num) hd)

theorem addLexemeStep_eq (C : Collab A) (kw : Rec) (st : Session A)
    (acc : List Rec) (form : String)
    (hform : ¬form = "") (hform2 : ¬pyStrip (C.clean_form kw form) = "")
    (hl : validField kw.Language_ID = true) (hp : validField kw.Parameter_ID = true)
    (hc : validField kw.Cognateset_ID = true)
    (hfresh : some (toString (st.store.count + 1)) ∉ st.store.obj_index .FormTable) :
    addLexemeStep C kw (st, acc) form =
      (if segsOf C kw (pyStrip (C.clean_form kw form)) = [] then
        .ok ({ st with store :=
          { count := st.store.count + 1
            cognate_count := st.store.cognate_count
            objects := setAt st.store.objects .FormTable
              (st.store.objects .FormTable ++ [stringifyRec { kw with
                Segments := some (segsOf C kw (pyStrip (C.clean_form kw form)))
                ID := some (.str (toString (st.store.count + 1)))
                Form := some (pyStrip (C.clean_form kw form)) }])
            obj_index := setAt st.store.obj_index .FormTable
              (some (toString (st.store.count + 1)) ::
                st.store.obj_index .FormTable) } },
          acc ++ [stringifyRec { kw with
            Segments := some (segsOf C kw (pyStrip (C.clean_form kw form)))
            ID := some (.str (toString (st.store.count + 1)))
            Form := some (pyStrip (C.clean_form kw form)) }])
      else
        match C.analyze (segsOf C kw (pyStrip (C.clean_form kw form)))
            (setdefaultA st.tr_analyses kw.Language_ID C.init).1 with
        | .ok (_, bipa, sc, a2) =>
            if bipa.any Sound.isUnknown || sc.contains "?" then
              .ok ({ st with
                store :=
                  { count := st.store.count + 1
                    cognate_count := st.store.cognate_count
                    objects := setAt st.store.objects .FormTable
                      (st.store.objects .FormTable ++ [stringifyRec { kw with
                        Segments := some (segsOf C kw (pyStrip (C.clean_form kw form)))
                        ID := some (.str (toString (st.store.count + 1)))
                        Form := some (pyStrip (C.clean_form kw form)) }])
                    obj_index := setAt st.store.obj_index .FormTable
                      (some (toString (st.store.count + 1)) ::
                        st.store.obj_index .FormTable) }
                tr_analyses := updateA
                  (setdefaultA st.tr_analyses kw.Language_ID C.init).2
                  kw.Language_ID a2
                tr_bad_words := st.tr_bad_words ++ [{ kw with
                  Segments := some (segsOf C kw (pyStrip (C.clean_form kw form)))
                  ID := some (.str (toString (st.store.count + 1)))
                  Form := some (pyStrip (C.clean_form kw form)) }] },
                acc ++ [stringifyRec { kw with
                  Segments := some (segsOf C kw (pyStrip (C.clean_form kw form)))
                  ID := some (.str (toString (st.store.count + 1)))
                  Form := some (pyStrip (C.clean_form kw form)) }])
            else
              .ok ({ st with
                store :=
                  { count := st.store.count + 1
                    cognate_count := st.store.cognate_count
                    objects := setAt st.store.objects .FormTable
                      (st.store.objects .FormTable ++ [stringifyRec { kw with
                        Segments := some (segsOf C kw (pyStrip (C.clean_form kw form)))
                        ID := some (.str (toString (st.store.count + 1)))
                        Form := some (pyStrip (C.clean_form kw form)) }])
                    obj_index := setAt st.store.obj_index .FormTable
                      (some (toString (st.store.count + 1)) ::
                        st.store.obj_index .FormTable) }
                tr_analyses := updateA
                  (setdefaultA st.tr_analyses kw.Language_ID C.init).2
                  kw.Language_ID a2 },
                acc ++ [stringifyRec { kw with
                  Segments := some (segsOf C kw (pyStrip (C.clean_form kw form)))
                  ID := some (.str (toString (st.store.count + 1)))
                  Form := some (pyStrip (C.clean_form kw form)) }])
        | .error (.valueError _) =>
            .ok ({ st with
              store :=
                { count := st.store.count + 1
                  cognate_count := st.store.cognate_count
                  objects := setAt st.store.objects .FormTable
                    (st.store.objects .FormTable ++ [stringifyRec { kw with
                      Segments := some (segsOf C kw (pyStrip (C.clean_form kw form)))
                      ID := some (.str (toString (st.store.count + 1)))
                      Form := some (pyStrip (C.clean_form kw form)) }])
                  obj_index := setAt st.store.obj_index .FormTable
                    (some (toString (st.store.count + 1)) ::
                      st.store.obj_index .FormTable) }
              tr_analyses := (setdefaultA st.tr_analyses kw.Language_ID C.init).2
              tr_invalid_words := st.tr_invalid_words ++ [{ kw with
                Segments := some (segsOf C kw (pyStrip (C.clean_form kw form)))
                ID := some (.str (toString (st.store.count + 1)))
                Form := some (pyStrip (C.clean_form kw form)) }] },
              acc ++ [stringifyRec { kw with
                Segments := some (segsOf C kw (pyStrip (C.clean_form kw form)))
                ID := some (.str (toString (st.store.count + 1)))
                Form := some (pyStrip (C.clean_form kw form)) }])
        | .error .keyError => .error .keyError
        | .error .attributeError => .error .attributeError) := by
  have hvID : validField (some (IdV.str (toString (st.store.count + 1)))) = true := by
    simp [validField, IdV.stringify, ID_PATTERN_match_toString]
  have hval : validateRec .FormTable
      { kw with
        Segments := some (segsOf C kw (pyStrip (C.clean_form kw form)))
        ID := some (.str (toString (st.store.count + 1)))
        Form := some (pyStrip (C.clean_form kw form)) } =
      .ok (stringifyRec { kw with
        Segments := some (segsOf C kw (pyStrip (C.clean_form kw form)))
        ID := some (.str (toString (st.store.count + 1)))
        Form := some (pyStrip (C.clean_form kw form)) }) :=
    validateRec_ok _ _ hvID hl hp hc
  have hnotmem : ¬(keyOf (stringifyRec { kw with
      Segments := some (segsOf C kw (pyStrip (C.clean_form kw form)))
      ID := some (.str (toString (st.store.count + 1)))
      Form := some (pyStrip (C.clean_form kw form)) }) ∈
      ({ st.store with count := st.store.count + 1 } : Store).obj_index .FormTable) := by
    rw [keyOf_stringifyRec]
    exact hfresh
  have hadd : addObject { st.store with count := st.store.count + 1 } .FormTable
      { kw with
        Segments := some (segsOf C kw (pyStrip (C.clean_form kw form)))
        ID := some (.str (toString (st.store.count + 1)))
        Form := some (pyStrip (C.clean_form kw form)) } =
      .ok (stringifyRec { kw with
        Segments := some (segsOf C kw (pyStrip (C.clean_form kw form)))
        ID := some (.str (toString (st.store.count + 1)))
        Form := some (pyStrip (C.clean_form kw form)) },
        { count := st.store.count + 1
          cognate_count := st.store.cognate_count
          objects := setAt st.store.objects .FormTable
            (st.store.objects .FormTable ++ [stringifyRec { kw with
              Segments := some (segsOf C kw (pyStrip (C.clean_form kw form)))
              ID := some (.str (toString (st.store.count + 1)))
              Form := some (pyStrip (C.clean_form kw form)) }])
          obj_index := setAt st.store.obj_index .FormTable
            (some (toString (st.store.count + 1)) ::
              st.store.obj_index .FormTable) }) := by
    rw [addObject_eq_ok _ _ _ _ hval, if_neg hnotmem]
    rfl
  simp only [addLexemeStep, lexeme_id]
  rw [if_neg hform, if_neg hform2]
  simp only [hadd]

theorem addLexemeStep_run (C : Collab A) (kw : Rec) (st : Session A)
    (acc : List Rec) (form : String)
    (hform : ¬form = "") (hform2 : ¬pyStrip (C.clean_form kw form) = "")
    (hl : validField kw.Language_ID = true) (hp : validField kw.Parameter_ID = true)
    (hc : validField kw.Cognateset_ID = true)
    (hnofatal : ∀ s a, C.analyze s a ≠ .error .keyError ∧
      C.analyze s a ≠ .error .attributeError)
    (hfresh : some (toString (st.store.count + 1)) ∉ st.store.obj_index .FormTable) :
    ∃ st2 : Session A,
      addLexemeStep C kw (st, acc) form = .ok (st2,
        acc ++ [stringifyRec { kw with
          Segments := some (segsOf C kw (pyStrip (C.clean_form kw form)))
          ID := some (.str (toString (st.store.count + 1)))
          Form := some (pyStrip (C.clean_form kw form)) }]) ∧
      st2.store =
        { count := st.store.count + 1
          cognate_count := st.store.cognate_count
          objects := setAt st.store.objects .FormTable
            (st.store.objects .FormTable ++ [stringifyRec { kw with
              Segments := some (segsOf C kw (pyStrip (C.clean_form kw form)))
              ID := some (.str (toString (st.store.count + 1)))
              Form := some (pyStrip (C.clean_form kw form)) }])
          obj_index := setAt st.store.obj_index .FormTable
            (some (toString (st.store.count + 1)) ::
              st.store.obj_index .FormTable) } := by
  rw [addLexemeStep_eq C kw st acc form hform hform2 hl hp hc hfresh]
  split
  · exact ⟨_, rfl, rfl⟩
  · split
    · split
      · exact ⟨_, rfl, rfl⟩
      · exact ⟨_, rfl, rfl⟩
    · exact ⟨_, rfl, rfl⟩
    · next h => exact absurd h (hnofatal _ _).1
    · next h => exact absurd h (hnofatal _ _).2

theorem addLexemesGo_spec (C : Collab A) (kw : Rec)
    (hl : validField kw.Language_ID = true) (hp : validField kw.Parameter_ID = true)
    (hc : validField kw.Cognateset_ID = true)
    (hnofatal : ∀ s a, C.analyze s a ≠ .error .keyError ∧
      C.analyze s a ≠ .error .attributeError) :
    ∀ (cs : List String) (st : Session A) (acc : List Rec),
      (∀ j, st.store.count < j →
        some (toString j) ∉ st.store.obj_index .FormTable) →
      ∃ st2 : Session A, addLexemesGo C kw cs (st, acc) =
          .ok (st2, acc ++ expectedLexemes C kw cs st.store.count) ∧
        st2.store.objects .FormTable =
          st.store.objects .FormTable ++ expectedLexemes C kw cs st.store.count := by
  intro cs
  induction cs with
  | nil =>
      intro st acc _
      exact ⟨st, by simp [addLexemesGo, expectedLexemes], by simp [expectedLexemes]⟩
  | cons f fs ih =>
      intro st acc hfresh
      by_cases hf : f = ""
      · obtain ⟨st2, hgo, hobj⟩ := ih st acc hfresh
        have hstep : addLexemeStep C kw (st, acc) f = .ok (st, acc) := by
          simp [addLexemeStep, hf]
        refine ⟨st2, ?_, ?_⟩
        · simp only [addLexemesGo, hstep]
          rw [hgo]
          simp [expectedLexemes, hf]
        · rw [hobj]
          simp [expectedLexemes, hf]
      · by_cases hf2 : pyStrip (C.clean_form kw f) = ""
        · obtain ⟨st2, hgo, hobj⟩ := ih st acc hfresh
          have hstep : addLexemeStep C kw (st, acc) f = .ok (st, acc) := by
            simp [addLexemeStep, hf, hf2]
          refine ⟨st2, ?_, ?_⟩
          · simp only [addLexemesGo, hstep]
            rw [hgo]
            simp [expectedLexemes, hf, hf2]
          · rw [hobj]
            simp [expectedLexemes, hf, hf2]
        · obtain ⟨st2, hstep, hst2⟩ := addLexemeStep_run C kw st acc f hf hf2
            hl hp hc hnofatal (hfresh _ (Nat.lt_succ_self _))
          have hcnt : st2.store.count = st.store.count + 1 := by rw [hst2]
          have hidx : st2.store.obj_index = setAt st.store.obj_index .FormTable
              (some (toString (st.store.count + 1)) ::
                st.store.obj_index .FormTable) := by rw [hst2]
          have hobj2 : st2.store.objects .FormTable =
              st.store.objects .FormTable ++ [stringifyRec { kw with
                Segments := some (segsOf C kw (pyStrip (C.clean_form kw f)))
                ID := some (.str (toString (st.store.count + 1)))
                Form := some (pyStrip (C.clean_form kw f)) }] := by
            rw [hst2]
            simp [setAt]
          have hfresh2 : ∀ j, st2.store.count < j →
              some (toString j) ∉ st2.store.obj_index .FormTable := by
            intro j hj hmem
            rw [hcnt] at hj
            rw [hidx] at hmem
            rw [show setAt st.store.obj_index .FormTable
                (some (toString (st.store.count + 1)) ::
                  st.store.obj_index .FormTable) .FormTable =
                some (toString (st.store.count + 1)) ::
                  st.store.obj_index .FormTable from rfl,
              List.mem_cons] at hmem
            rcases hmem with hmem | hmem
            · have h2 : toString j = toString (st.store.count + 1) := by
                injection hmem
              have := toString_nat_inj _ _ h2
              omega
            · exact hfresh j (by omega) hmem
          obtain ⟨st3, hgo, hobj3⟩ := ih st2 (acc ++ [stringifyRec { kw with
            Segments := some (segsOf C kw (pyStrip (C.clean_form kw f)))
            ID := some (.str (toString (st.store.count + 1)))
            Form := some (pyStrip (C.clean_form kw f)) }]) hfresh2
          refine ⟨st3, ?_, ?_⟩
          · simp only [addLexemesGo, hstep]
            rw [hgo, hcnt]
            have hexp : expectedLexemes C kw (f :: fs) st.store.count =
                stringifyRec { kw with
                  Segments := some (segsOf C kw (pyStrip (C.clean_form kw f)))
                  ID := some (.str (toString (st.store.count + 1)))
                  Form := some (pyStrip (C.clean_form kw f)) } ::
                  expectedLexemes C kw fs (st.store.count + 1) := by
              simp [expectedLexemes, hf, hf2]
            rw [hexp, List.append_assoc]
            rfl
          · rw [hobj3, hcnt, hobj2]
            have hexp : expectedLexemes C kw (f :: fs) st.store.count =
                stringifyRec { kw with
                  Segments := some (segsOf C kw (pyStrip (C.clean_form kw f)))
                  ID := some (.str (toString (st.store.count + 1)))
                  Form := some (pyStrip (C.clean_form kw f)) } ::
                  expectedLexemes C kw fs (st.store.count + 1) := by
              simp [expectedLexemes, hf, hf2]
            rw [hexp, List.append_assoc]
            rfl

end Lemmas

/-- C1 (counterexample): inserting a record whose ID `a` is already in the
form table's deduplication index is not always a silent no-op — when the
record's `Language_ID` fails the pattern check, the insertion raises. -/
theorem claim1_counterexample :
    (some "a") ∈ storeA.obj_index .FormTable ∧
      isErr (addObject storeA .FormTable recA_badLang) = true := by
  constructor
  · decide
  · rfl

/-- C1 (amended): provided the record passes identifier validation,
inserting it while its ID is already present in the table's deduplication
index is a silent no-op — the store (table and index) is returned
unchanged, with no error — and the records stored under that ID are
unchanged by any further sequence of insert calls. -/
theorem claim1_amended (st : Store) (t : Table) (r d : Rec)
    (hv : validateRec t r = .ok d) (hk : keyOf d ∈ st.obj_index t) :
    addObject st t r = .ok (d, st) ∧
      ∀ l st', runInserts st l = .ok st' →
        recordsUnder st' t (keyOf d) = recordsUnder st t (keyOf d) := by
  refine ⟨?_, ?_⟩
  · rw [addObject_eq_ok _ _ _ _ hv, if_pos hk]
  · intro l st' h
    exact (runInserts_frozen l st st' h t (keyOf d) hk).2

/-- C1 (witness): the amended theorem applied to the duplicate insertion
of `recA_y` into `storeA`, whose index already holds ID `a`. -/
theorem claim1_witness :
    addObject storeA .FormTable recA_y = .ok (recA_y, storeA) ∧
      recordsUnder storeA .FormTable (keyOf recA_y) =
        recordsUnder storeA .FormTable (keyOf recA_y) :=
  ⟨(claim1_amended storeA .FormTable recA_y recA_y (by rfl) (by decide)).1,
    (claim1_amended storeA .FormTable recA_y recA_y (by rfl) (by decide)).2
      [(.FormTable, recA_y)] storeA (by rfl)⟩

/-- C2: an insert whose record carries an ID that fails the pattern check
once stringified raises `ValueError` (with the code's message, the ID
being checked first), so nothing is appended and no ID is indexed — the
caller's store is unchanged. -/
theorem claim2 (st : Store) (t : Table) (r : Rec) (v : IdV)
    (h1 : r.ID = some v) (h2 : ID_PATTERN_match v.stringify = false) :
    addObject st t r = .error (.valueError
      ("invalid CLDF identifier " ++ t.name ++ "-" ++ "ID" ++ ": " ++ v.stringify)) := by
  apply addObject_eq_err
  simp [validateRec, validateField, h1, h2, Bind.bind, Except.bind]

/-- C2 (witness): inserting the record with ID `bad id!` into the empty
store raises the validation error. -/
theorem claim2_witness :
    addObject Store.empty .FormTable recBadId = .error (.valueError
      ("invalid CLDF identifier " ++ Table.name .FormTable ++ "-" ++ "ID" ++ ": " ++
        (IdV.str "bad id!").stringify)) :=
  claim2 Store.empty .FormTable recBadId (.str "bad id!") rfl (by decide)

/-- C3: after the referential pruning of session exit, every remaining
language record's ID equals the `Language_ID` of some form record and
every remaining concept record's ID equals the `Parameter_ID` of some
form record; conversely every referenced language/concept record is
retained; the form and cognate tables are left exactly as inserted. -/
theorem claim3 (objs : Table → List Rec) :
    (∀ o ∈ finalize objs .LanguageTable,
        ∃ f ∈ finalize objs .FormTable, f.Language_ID = o.ID) ∧
    (∀ o ∈ finalize objs .ParameterTable,
        ∃ f ∈ finalize objs .FormTable, f.Parameter_ID = o.ID) ∧
    (∀ o ∈ objs .LanguageTable,
        (∃ f ∈ objs .FormTable, f.Language_ID = o.ID) →
          o ∈ finalize objs .LanguageTable) ∧
    (∀ o ∈ objs .ParameterTable,
        (∃ f ∈ objs .FormTable, f.Parameter_ID = o.ID) →
          o ∈ finalize objs .ParameterTable) ∧
    finalize objs .FormTable = objs .FormTable ∧
    finalize objs .CognateTable = objs .CognateTable := by
  refine ⟨?_, ?_, ?_, ?_, rfl, rfl⟩ <;>
    · intro o ho
      simp only [finalize, List.mem_filter, List.any_eq_true, decide_eq_true_eq] at *
      tauto

/-- C3 (witness): on the sample table map, the unreferenced language `L1`
is dropped while everything referenced survives and the form table is
untouched. -/
theorem claim3_witness :
    finalize objsC .FormTable = objsC .FormTable ∧
      finalize objsC .CognateTable = objsC .CognateTable :=
  ⟨(claim3 objsC).2.2.2.2.1, (claim3 objsC).2.2.2.2.2⟩

/-- C5: a call of `add_lexemes` on a raw row (with valid identifier
fields, an analyzer without contract violations, and no generated lexeme
id already taken) creates records for exactly the split candidates that
are non-empty and stay non-empty after cleaning and stripping; each gets
the next sequential lexeme ID in split order, the records are appended to
the form table in that order, and exactly the list of newly created
records is returned (possibly empty). -/
theorem claim5 (C : Collab A) (st : Session A) (kw : Rec)
    (hl : validField kw.Language_ID = true) (hp : validField kw.Parameter_ID = true)
    (hc : validField kw.Cognateset_ID = true)
    (hnofatal : ∀ s a, C.analyze s a ≠ .error .keyError ∧
      C.analyze s a ≠ .error .attributeError)
    (hfresh : ∀ j, st.store.count < j →
      some (toString j) ∉ st.store.obj_index .FormTable) :
    ∃ st2 : Session A, add_lexemes C st kw =
        .ok (expectedLexemes C kw (C.split_forms kw kw.Value) st.store.count, st2) ∧
      st2.store.objects .FormTable = st.store.objects .FormTable ++
        expectedLexemes C kw (C.split_forms kw kw.Value) st.store.count := by
  obtain ⟨st2, hgo, hobj⟩ := addLexemesGo_spec C kw hl hp hc hnofatal
    (C.split_forms kw kw.Value) st [] hfresh
  refine ⟨st2, ?_, hobj⟩
  simp only [add_lexemes, hgo, List.nil_append]

/-- C5 (witness): splitting the raw value `to go; to walk` on `;` in a
fresh session yields exactly two records with Forms `to go` and
`to walk` and IDs `1` and `2`, both appended to the form table. -/
theorem claim5_witness :
    (∃ st2 : Session Unit, add_lexemes sampleC sampleS rowGoWalk =
        .ok (expectedLexemes sampleC rowGoWalk
          (sampleC.split_forms rowGoWalk rowGoWalk.Value) sampleS.store.count, st2) ∧
      st2.store.objects .FormTable = sampleS.store.objects .FormTable ++
        expectedLexemes sampleC rowGoWalk
          (sampleC.split_forms rowGoWalk rowGoWalk.Value) sampleS.store.count) ∧
    (expectedLexemes sampleC rowGoWalk
        (sampleC.split_forms rowGoWalk rowGoWalk.Value) sampleS.store.count).map Rec.Form =
      [some "to go", some "to walk"] ∧
    (expectedLexemes sampleC rowGoWalk
        (sampleC.split_forms rowGoWalk rowGoWalk.Value) sampleS.store.count).map Rec.ID =
      [some (.str "1"), some (.str "2")] :=
  ⟨claim5 sampleC sampleS rowGoWalk (by decide) (by decide) (by decide)
      (fun s a => ⟨fun h => Except.noConfusion h, fun h => Except.noConfusion h⟩)
      (fun j hj => List.not_mem_nil _),
    by decide, by decide⟩

/-- C4: for a lexeme whose `Segments` are non-empty, the analysis outcome
routes the record as follows: on success with an unknown sound or a `?`
sound class, the record goes to the flagged bucket `tr_bad_words` but
stays in the form table; on a `ValueError`, it goes to `tr_invalid_words`
but stays in the form table; on a `KeyError` or `AttributeError`, the
error is re-raised and the call aborts.  In no recoverable case is the
record removed from the store. -/
theorem claim4 (C : Collab A) (st : Session A) (kw : Rec) (f0 : String)
    (hs : C.split_forms kw kw.Value = [f0])
    (hf : ¬f0 = "") (hf2 : ¬pyStrip (C.clean_form kw f0) = "")
    (hl : validField kw.Language_ID = true) (hp : validField kw.Parameter_ID = true)
    (hc : validField kw.Cognateset_ID = true)
    (hfresh : some (toString (st.store.count + 1)) ∉ st.store.obj_index .FormTable)
    (hsg : ¬segsOf C kw (pyStrip (C.clean_form kw f0)) = []) :
    (∀ ret bipa sc a2,
      C.analyze (segsOf C kw (pyStrip (C.clean_form kw f0)))
          (setdefaultA st.tr_analyses kw.Language_ID C.init).1 =
        .ok (ret, bipa, sc, a2) →
      (bipa.any Sound.isUnknown || sc.contains "?") = true →
      ∃ st2 : Session A, add_lexemes C st kw =
          .ok ([stringifyRec { kw with
            Segments := some (segsOf C kw (pyStrip (C.clean_form kw f0)))
            ID := some (.str (toString (st.store.count + 1)))
            Form := some (pyStrip (C.clean_form kw f0)) }], st2) ∧
        stringifyRec { kw with
          Segments := some (segsOf C kw (pyStrip (C.clean_form kw f0)))
          ID := some (.str (toString (st.store.count + 1)))
          Form := some (pyStrip (C.clean_form kw f0)) }
          ∈ st2.store.objects .FormTable ∧
        { kw with
          Segments := some (segsOf C kw (pyStrip (C.clean_form kw f0)))
          ID := some (.str (toString (st.store.count + 1)))
          Form := some (pyStrip (C.clean_form kw f0)) } ∈ st2.tr_bad_words) ∧
    (∀ m, C.analyze (segsOf C kw (pyStrip (C.clean_form kw f0)))
          (setdefaultA st.tr_analyses kw.Language_ID C.init).1 =
        .error (.valueError m) →
      ∃ st2 : Session A, add_lexemes C st kw =
          .ok ([stringifyRec { kw with
            Segments := some (segsOf C kw (pyStrip (C.clean_form kw f0)))
            ID := some (.str (toString (st.store.count + 1)))
            Form := some (pyStrip (C.clean_form kw f0)) }], st2) ∧
        stringifyRec { kw with
          Segments := some (segsOf C kw (pyStrip (C.clean_form kw f0)))
          ID := some (.str (toString (st.store.count + 1)))
          Form := some (pyStrip (C.clean_form kw f0)) }
          ∈ st2.store.objects .FormTable ∧
        { kw with
          Segments := some (segsOf C kw (pyStrip (C.clean_form kw f0)))
          ID := some (.str (toString (st.store.count + 1)))
          Form := some (pyStrip (C.clean_form kw f0)) } ∈ st2.tr_invalid_words) ∧
    (C.analyze (segsOf C kw (pyStrip (C.clean_form kw f0)))
        (setdefaultA st.tr_analyses kw.Language_ID C.init).1 = .error .keyError →
      add_lexemes C st kw = .error .keyError) ∧
    (C.analyze (segsOf C kw (pyStrip (C.clean_form kw f0)))
        (setdefaultA st.tr_analyses kw.Language_ID C.init).1 = .error .attributeError →
      add_lexemes C st kw = .error .attributeError) := by
  have h1 := addLexemeStep_eq C kw st [] f0 hf hf2 hl hp hc hfresh
  rw [if_neg hsg] at h1
  refine ⟨?_, ?_, ?_, ?_⟩
  · intro ret bipa sc a2 han hflag
    simp only [han] at h1
    rw [if_pos hflag] at h1
    have hall : add_lexemes C st kw = .ok ([stringifyRec
        { kw with
          Segments := some (segsOf C kw (pyStrip (C.clean_form kw f0)))
          ID := some (.str (toString (st.store.count + 1)))
          Form := some (pyStrip (C.clean_form kw f0)) }],
        { st with
          store :=
            { count := st.store.count + 1
              cognate_count := st.store.cognate_count
              objects := setAt st.store.objects .FormTable
                (st.store.objects .FormTable ++ [stringifyRec
                  { kw with
                    Segments := some (segsOf C kw (pyStrip (C.clean_form kw f0)))
                    ID := some (.str (toString (st.store.count + 1)))
                    Form := some (pyStrip (C.clean_form kw f0)) }])
              obj_index := setAt st.store.obj_index .FormTable
                (some (toString (st.store.count + 1)) ::
                  st.store.obj_index .FormTable) }
          tr_analyses := updateA (setdefaultA st.tr_analyses kw.Language_ID C.init).2
            kw.Language_ID a2
          tr_bad_words := st.tr_bad_words ++
            [{ kw with
               Segments := some (segsOf C kw (pyStrip (C.clean_form kw f0)))
               ID := some (.str (toString (st.store.count + 1)))
               Form := some (pyStrip (C.clean_form kw f0)) }] }) := by
      simp only [add_lexemes, hs, addLexemesGo, h1, List.nil_append]
    exact ⟨_, hall, by simp [setAt], by simp⟩
  · intro m han
    simp only [han] at h1
    have hall : add_lexemes C st kw = .ok ([stringifyRec
        { kw with
          Segments := some (segsOf C kw (pyStrip (C.clean_form kw f0)))
          ID := some (.str (toString (st.store.count + 1)))
          Form := some (pyStrip (C.clean_form kw f0)) }],
        { st with
          store :=
            { count := st.store.count + 1
              cognate_count := st.store.cognate_count
              objects := setAt st.store.objects .FormTable
                (st.store.objects .FormTable ++ [stringifyRec
                  { kw with
                    Segments := some (segsOf C kw (pyStrip (C.clean_form kw f0)))
                    ID := some (.str (toString (st.store.count + 1)))
                    Form := some (pyStrip (C.clean_form kw f0)) }])
              obj_index := setAt st.store.obj_index .FormTable
                (some (toString (st.store.count + 1)) ::
                  st.store.obj_index .FormTable) }
          tr_analyses := (setdefaultA st.tr_analyses kw.Language_ID C.init).2
          tr_invalid_words := st.tr_invalid_words ++
            [{ kw with
               Segments := some (segsOf C kw (pyStrip (C.clean_form kw f0)))
               ID := some (.str (toString (st.store.count + 1)))
               Form := some (pyStrip (C.clean_form kw f0)) }] }) := by
      simp only [add_lexemes, hs, addLexemesGo, h1, List.nil_append]
    exact ⟨_, hall, by simp [setAt], by simp⟩
  · intro han
    simp only [han] at h1
    simp only [add_lexemes, hs, addLexemesGo, h1]
  · intro han
    simp only [han] at h1
    simp only [add_lexemes, hs, addLexemesGo, h1]

/-- C4 (witness): a lexeme with segments `[b, a]` whose analyzer reports
an unknown sound is retained in the form table and also appears in the
flagged bucket. -/
theorem claim4_witness :
    ∃ st2 : Session Unit, add_lexemes sampleC4 sampleS rowSeg =
        .ok ([stringifyRec { rowSeg with
          Segments := some (segsOf sampleC4 rowSeg
            (pyStrip (sampleC4.clean_form rowSeg "ba")))
          ID := some (.str (toString (sampleS.store.count + 1)))
          Form := some (pyStrip (sampleC4.clean_form rowSeg "ba")) }], st2) ∧
      stringifyRec { rowSeg with
        Segments := some (segsOf sampleC4 rowSeg
          (pyStrip (sampleC4.clean_form rowSeg "ba")))
        ID := some (.str (toString (sampleS.store.count + 1)))
        Form := some (pyStrip (sampleC4.clean_form rowSeg "ba")) }
        ∈ st2.store.objects .FormTable ∧
      { rowSeg with
        Segments := some (segsOf sampleC4 rowSeg
          (pyStrip (sampleC4.clean_form rowSeg "ba")))
        ID := some (.str (toString (sampleS.store.count + 1)))
        Form := some (pyStrip (sampleC4.clean_form rowSeg "ba")) }
        ∈ st2.tr_bad_words :=
  (claim4 sampleC4 sampleS rowSeg "ba" (by decide) (by decide) (by decide)
      (by decide) (by decide) (by decide) (by decide) (by decide)).1
    ["b", "a"] [Sound.unknownSound] ["?"] () (by rfl) (by decide)

/-- C6: in a fresh session (both counters 0), the `(n+1)`-th call of the
lexeme identifier generator returns the string form of `n+1` and the
`(n+1)`-th call of the cognate identifier generator returns the integer
`n+1`; the values are strictly increasing with no repeats and no gaps
(their numeric forms are exactly `1, 2, 3, ...`), and the two counters
are independent: neither generator touches the other's counter or
value. -/
theorem claim6 (st : Store) (h1 : st.count = 0) (h2 : st.cognate_count = 0)
    (m n : Nat) :
    lexVal st n = toString (n + 1) ∧
    cogVal st n = n + 1 ∧
    (m < n → lexVal st m ≠ lexVal st n) ∧
    (m < n → cogVal st m < cogVal st n) ∧
    (lexeme_id st).2.cognate_count = st.cognate_count ∧
    (cognate_id st).2.count = st.count ∧
    (lexeme_id ((cognate_id st).2)).1 = (lexeme_id st).1 ∧
    (cognate_id ((lexeme_id st).2)).1 = (cognate_id st).1 := by
  refine ⟨?_, ?_, ?_, ?_, rfl, rfl, rfl, rfl⟩
  · rw [lexVal_eq, h1, Nat.zero_add]
  · rw [cogVal_eq, h2, Nat.zero_add]
  · intro hmn hcontra
    rw [lexVal_eq, lexVal_eq, h1] at hcontra
    have := toString_nat_inj _ _ hcontra
    omega
  · intro hmn
    rw [cogVal_eq, cogVal_eq, h2]
    omega

/-- C6 (witness): in the empty store, the second lexeme id is `"2"`, the
second cognate id is `2`, and the first ids differ from the second. -/
theorem claim6_witness :
    lexVal Store.empty 1 = toString 2 ∧
    cogVal Store.empty 1 = 2 ∧
    (0 < 1 → lexVal Store.empty 0 ≠ lexVal Store.empty 1) ∧
    (0 < 1 → cogVal Store.empty 0 < cogVal Store.empty 1) ∧
    (lexeme_id Store.empty).2.cognate_count = Store.empty.cognate_count ∧
    (cognate_id Store.empty).2.count = Store.empty.count ∧
    (lexeme_id ((cognate_id Store.empty).2)).1 = (lexeme_id Store.empty).1 ∧
    (cognate_id ((lexeme_id Store.empty).2)).1 = (cognate_id Store.empty).1 :=
  claim6 Store.empty rfl rfl 0 1

/-- C7: the referential pruning of finalization is idempotent — filtering
the language and concept tables against the form table's reference sets a
second time changes nothing. -/
theorem claim7 (objs : Table → List Rec) :
    finalize (finalize objs) = finalize objs := by
  funext t
  cases t <;> simp [finalize, List.filter_filter]

/-- C7 (witness): idempotence evaluated on the sample table map. -/
theorem claim7_witness : finalize (finalize objsC) = finalize objsC :=
  claim7 objsC

/-- C8: a concept row with a (truthy) `Concepticon_ID` but no
`Concepticon_Gloss` whose catalog lookup has no entry is still inserted,
its gloss silently set to the lookup's `None`; the missing gloss is not
an error.  (The catalog lookup `cached_glosses` is modelled from the
spec.) -/
theorem claim8 (m : List (Int × String)) (st : Store) (kw : Rec) (cid : Int)
    (h1 : kw.Concepticon_ID = some cid) (h2 : cid ≠ 0)
    (h3 : kw.Concepticon_Gloss = none) (h4 : cached_glosses m cid = none)
    (hid : validField kw.ID = true) (hl : validField kw.Language_ID = true)
    (hp : validField kw.Parameter_ID = true) (hc : validField kw.Cognateset_ID = true)
    (hfresh : keyOf kw ∉ st.obj_index .ParameterTable) :
    ∃ st', add_concept m st kw =
        .ok (stringifyRec { kw with Concepticon_Gloss := some none }, st') ∧
      stringifyRec { kw with Concepticon_Gloss := some none }
        ∈ st'.objects .ParameterTable := by
  have hkw1 : validateRec .ParameterTable { kw with Concepticon_Gloss := some none } =
      .ok (stringifyRec { kw with Concepticon_Gloss := some none }) :=
    validateRec_ok _ _ hid hl hp hc
  have hkey : keyOf (stringifyRec { kw with Concepticon_Gloss := some none }) = keyOf kw := by
    rw [keyOf_stringifyRec]; rfl
  have hstep : add_concept m st kw =
      addObject st .ParameterTable { kw with Concepticon_Gloss := some none } := by
    simp only [add_concept, h1, if_pos h2, h3, h4]
  refine ⟨{ st with
      objects := setAt st.objects .ParameterTable (st.objects .ParameterTable ++
        [stringifyRec { kw with Concepticon_Gloss := some none }])
      obj_index := setAt st.obj_index .ParameterTable
        (keyOf (stringifyRec { kw with Concepticon_Gloss := some none }) ::
          st.obj_index .ParameterTable) }, ?_, ?_⟩
  · rw [hstep, addObject_eq_ok _ _ _ _ hkw1, if_neg (by rw [hkey]; exact hfresh)]
  · simp [setAt]

/-- C8 (witness): the sample concept row with `Concepticon_ID` 5 and a
catalog that only knows ID 3 is inserted with its gloss left `None`. -/
theorem claim8_witness :
    ∃ st', add_concept [(3, "DOG")] Store.empty kwConcept =
        .ok (stringifyRec { kwConcept with Concepticon_Gloss := some none }, st') ∧
      stringifyRec { kwConcept with Concepticon_Gloss := some none }
        ∈ st'.objects .ParameterTable :=
  claim8 [(3, "DOG")] Store.empty kwConcept 5 rfl (by decide) rfl (by decide)
    (by decide) (by decide) (by decide) (by decide) (by decide)

/-- C9 (counterexample): inserting `recA_y` (ID `a`, Form `y`) into a
store that already holds `recA_x` (ID `a`, Form `x`) is suppressed as a
duplicate, yet the call returns `recA_y` — not the stored first-inserted
record `recA_x`. -/
theorem claim9_counterexample :
    addObject storeA .FormTable recA_y = .ok (recA_y, storeA) ∧
      recordsUnder storeA .FormTable (some "a") = [recA_x] ∧ recA_y ≠ recA_x := by
  exact ⟨by rfl, by rfl, by decide⟩

/-- C9 (amended): a successful insert returns the validated (stringified)
input record; when the ID was not yet indexed the record is appended and
is what is now stored under that ID, but when the insertion is suppressed
as a duplicate the store is returned unchanged and the returned record is
the new input record, which may differ from the stored first-inserted
one. -/
theorem claim9_amended (st : Store) (t : Table) (r d : Rec) (st' : Store)
    (h : addObject st t r = .ok (d, st')) :
    validateRec t r = .ok d ∧
      (keyOf d ∈ st.obj_index t → st' = st) ∧
      (keyOf d ∉ st.obj_index t →
        recordsUnder st' t (keyOf d) = recordsUnder st t (keyOf d) ++ [d]) := by
  cases hv : validateRec t r with
  | error e => rw [addObject_eq_err _ _ _ _ hv] at h; cases h
  | ok d0 =>
      rw [addObject_eq_ok _ _ _ _ hv] at h
      by_cases hm : keyOf d0 ∈ st.obj_index t
      · rw [if_pos hm] at h
        injection h with h2
        injection h2 with hd hs
        subst hd
        subst hs
        exact ⟨rfl, fun _ => rfl, fun hn => absurd hm hn⟩
      · rw [if_neg hm] at h
        injection h with h2
        injection h2 with hd hs
        subst hd
        subst hs
        refine ⟨rfl, fun hp => absurd hp hm, fun _ => ?_⟩
        simp [recordsUnder, setAt, List.filter_append]

/-- C9 (witness): the amended theorem applied to the suppressed duplicate
insertion of `recA_y` into `storeA`. -/
theorem claim9_witness :
    validateRec .FormTable recA_y = .ok recA_y ∧
      (keyOf recA_y ∈ storeA.obj_index .FormTable → storeA = storeA) ∧
      (keyOf recA_y ∉ storeA.obj_index .FormTable →
        recordsUnder storeA .FormTable (keyOf recA_y) =
          recordsUnder storeA .FormTable (keyOf recA_y) ++ [recA_y]) :=
  claim9_amended storeA .FormTable recA_y recA_y storeA (by rfl)

/-- C10: the pattern check of insertion also covers `Language_ID`,
`Parameter_ID` and `Cognateset_ID` whenever present and non-`None`: if
any of them fails once stringified, the insertion raises and adds
nothing. -/
theorem claim10 (st : Store) (t : Table) (r : Rec) :
    (∀ v, r.Language_ID = some v → ID_PATTERN_match v.stringify = false →
      isErr (addObject st t r) = true) ∧
    (∀ v, r.Parameter_ID = some v → ID_PATTERN_match v.stringify = false →
      isErr (addObject st t r) = true) ∧
    (∀ v, r.Cognateset_ID = some v → ID_PATTERN_match v.stringify = false →
      isErr (addObject st t r) = true) := by
  refine ⟨fun v hv hbad => ?_, fun v hv hbad => ?_, fun v hv hbad => ?_⟩
  · rw [isErr_addObject]
    exact isErr_validateRec t r (Or.inr (Or.inl (by simp [validField, hv, hbad])))
  · rw [isErr_addObject]
    exact isErr_validateRec t r (Or.inr (Or.inr (Or.inl (by simp [validField, hv, hbad]))))
  · rw [isErr_addObject]
    exact isErr_validateRec t r (Or.inr (Or.inr (Or.inr (by simp [validField, hv, hbad]))))

/-- C10 (witness): a record with valid ID `a` but malformed `Language_ID`
`bad id!` still aborts the insertion. -/
theorem claim10_witness :
    isErr (addObject Store.empty .FormTable recA_badLang) = true :=
  (claim10 Store.empty .FormTable recA_badLang).1 (.str "bad id!") rfl (by decide)

end Pylexibank
